import Mathlib

/-!
Shallow embedding of the employee leave/task management service
(`2_mcp_leave_management/main.py`): two in-memory stores keyed by employee
id, the leave/task tools operating on them, and the textual summary
renderer. Python dicts are modelled as association lists (preserving
iteration order); Python integers as `Int`; each tool takes the system
state and returns its message, plus the new state when it mutates.
-/

structure LeaveRecord where
  balance : Int
  history : List String
deriving DecidableEq

structure TaskRecord where
  tasks : List String
  completed : List String
deriving DecidableEq

abbrev LeaveStore := List (String × LeaveRecord)

abbrev TaskStore := List (String × TaskRecord)

structure SystemState where
  employee_leaves : LeaveStore
  employee_tasks : TaskStore
deriving DecidableEq

/-- Dictionary lookup (`store.get(id)` / `id in store`). -/
def lookupStore {α : Type} : List (String × α) → String → Option α
  | [], _ => none
  | (k, v) :: rest, id => if k = id then some v else lookupStore rest id

/-- Dictionary update of an existing key (`store[id] = r`): the entry keeps
its position, no entry is created. -/
def updateStore {α : Type} : List (String × α) → String → α → List (String × α)
  | [], _, _ => []
  | (k, v) :: rest, id, r =>
    (if k = id then (id, r) else (k, v)) :: updateStore rest id r

/-- Python string repetition `c * n` for a one-character glyph: a negative
count yields the empty string. -/
def glyphRepeat (c : Char) (n : Int) : String :=
  String.mk (List.replicate n.toNat c)

/-- The hard-coded initial contents of `employee_leaves` and `employee_tasks`. -/
def initialState : SystemState :=
  { employee_leaves :=
      [("E001", { balance := 18, history := ["2024-12-25", "2025-01-01"] }),
       ("E002", { balance := 20, history := [] })],
    employee_tasks :=
      [("E001", { tasks := ["Prepare report", "Attend meeting"],
                  completed := ["Prepare report"] }),
       ("E002", { tasks := ["Update website", "Backup database"],
                  completed := [] })] }

/-- `get_leave_balance`: check how many leave days are left for the employee. -/
def get_leave_balance (s : SystemState) (employee_id : String) : String :=
  match lookupStore s.employee_leaves employee_id with
  | some data => employee_id ++ " has " ++ toString data.balance ++ " leave days remaining."
  | none => "Employee ID not found."

/-- `apply_leave`: apply leave for specific dates. -/
def apply_leave (s : SystemState) (employee_id : String) (leave_dates : List String) :
    String × SystemState :=
  match lookupStore s.employee_leaves employee_id with
  | none => ("Employee ID not found.", s)
  | some data =>
    let requested_days : Int := leave_dates.length
    let available_balance : Int := data.balance
    if available_balance < requested_days then
      ("Insufficient leave balance. You requested " ++ toString requested_days ++
        " day(s) but have only " ++ toString available_balance ++ ".", s)
    else
      let newRec : LeaveRecord :=
        { balance := available_balance - requested_days,
          history := data.history ++ leave_dates }
      ("Leave applied for " ++ toString requested_days ++ " day(s). Remaining balance: " ++
        toString (available_balance - requested_days) ++ ".",
       { s with employee_leaves := updateStore s.employee_leaves employee_id newRec })

/-- `get_leave_history`: leave history for the employee. -/
def get_leave_history (s : SystemState) (employee_id : String) : String :=
  match lookupStore s.employee_leaves employee_id with
  | some data =>
    let history :=
      if data.history = [] then "No leaves taken."
      else String.intercalate ", " data.history
    "Leave history for " ++ employee_id ++ ": " ++ history
  | none => "Employee ID not found."

/-- `visualize_leave_summary`: builds the summary line list by looping over
the store and appending one bar line per employee, then joins with newlines. -/
def visualize_leave_summary (s : SystemState) : String :=
  let summary_lines : List String := ["🗂️ Leave Balances Summary:\n"]
  let summary_lines := s.employee_leaves.foldl
    (fun acc p =>
      let bar := glyphRepeat '🟩' p.2.balance ++ glyphRepeat '⬜' (20 - p.2.balance)
      acc ++ [p.1 ++ ": " ++ bar ++ " (" ++ toString p.2.balance ++ " days left)"])
    summary_lines
  String.intercalate "\n" summary_lines

/-- `assign_task`: assign a new task to an employee. -/
def assign_task (s : SystemState) (employee_id : String) (task : String) :
    String × SystemState :=
  match lookupStore s.employee_tasks employee_id with
  | none => ("Employee ID not found.", s)
  | some data =>
    let newRec : TaskRecord := { data with tasks := data.tasks ++ [task] }
    ("Task '" ++ task ++ "' assigned to " ++ employee_id ++ ".",
     { s with employee_tasks := updateStore s.employee_tasks employee_id newRec })

/-- `complete_task`: mark a specific task as completed. -/
def complete_task (s : SystemState) (employee_id : String) (task : String) :
    String × SystemState :=
  match lookupStore s.employee_tasks employee_id with
  | none => ("Employee ID not found.", s)
  | some data =>
    if task ∉ data.tasks then
      ("Task '" ++ task ++ "' not found for " ++ employee_id ++ ".", s)
    else if task ∈ data.completed then
      ("Task '" ++ task ++ "' is already marked as completed.", s)
    else
      let newRec : TaskRecord := { data with completed := data.completed ++ [task] }
      ("Task '" ++ task ++ "' marked as completed for " ++ employee_id ++ ".",
       { s with employee_tasks := updateStore s.employee_tasks employee_id newRec })

/-- The pending-task comprehension of `view_tasks`:
`[task for task in tasks if task not in completed]`. -/
def pendingOf (data : TaskRecord) : List String :=
  data.tasks.filter (fun task => decide (task ∉ data.completed))

/-- `view_tasks`: view pending and completed tasks for an employee. -/
def view_tasks (s : SystemState) (employee_id : String) : String :=
  match lookupStore s.employee_tasks employee_id with
  | none => "Employee ID not found."
  | some data =>
    let pending := pendingOf data
    let completed := data.completed
    let pending_list :=
      if pending = [] then "No pending tasks." else String.intercalate ", " pending
    let completed_list :=
      if completed = [] then "No tasks completed yet." else String.intercalate ", " completed
    "Tasks for " ++ employee_id ++ ":\n✅ Completed: " ++ completed_list ++
      "\n🕒 Pending: " ++ pending_list

/-- `get_greeting`: the templated greeting resource. -/
def get_greeting (name : String) : String :=
  "Hello, " ++ name ++ "! Welcome to the Employee Manager. How can I assist you today?"

/-- A state-mutating tool invocation. -/
inductive Command where
  | applyLeave (id : String) (dates : List String)
  | assignTask (id : String) (task : String)
  | completeTask (id : String) (task : String)
deriving DecidableEq

/-- The state after one tool invocation (the message is discarded). -/
def step (s : SystemState) (c : Command) : SystemState :=
  match c with
  | .applyLeave id dates => (apply_leave s id dates).2
  | .assignTask id task => (assign_task s id task).2
  | .completeTask id task => (complete_task s id task).2

/-- The state reached from the initial stores by a sequence of invocations. -/
def run (cs : List Command) : SystemState :=
  cs.foldl step initialState

/-- Every leave balance in the store lies between 0 and the 20-day cap. -/
def LeaveInv (store : LeaveStore) : Prop :=
  ∀ p ∈ store, 0 ≤ p.2.balance ∧ p.2.balance ≤ 20

/-- Spec-side description of the textual summary: the header followed by one
line per employee in store iteration order, each line carrying the id, a bar
of `balance` filled glyphs then `20 - balance` empty glyphs, and the balance,
all joined by newlines. -/
def leaveSummarySpec (s : SystemState) : String :=
  String.intercalate "\n"
    ("🗂️ Leave Balances Summary:\n" ::
      s.employee_leaves.map (fun p =>
        p.1 ++ ": " ++ (glyphRepeat '🟩' p.2.balance ++ glyphRepeat '⬜' (20 - p.2.balance)) ++
          " (" ++ toString p.2.balance ++ " days left)"))

lemma lookupStore_mem {α : Type} {store : List (String × α)} {id : String} {v : α}
    (h : lookupStore store id = some v) : (id, v) ∈ store := by
  induction store with
  | nil => simp [lookupStore] at h
  | cons p rest ih =>
    obtain ⟨k, w⟩ := p
    by_cases hk : k = id
    · subst hk
      simp [lookupStore] at h
      subst h
      exact List.mem_cons_self _ _
    · simp [lookupStore, hk] at h
      exact List.mem_cons_of_mem _ (ih h)

lemma lookupStore_updateStore_self {α : Type} {store : List (String × α)} {id : String}
    {v : α} (r : α) (h : lookupStore store id = some v) :
    lookupStore (updateStore store id r) id = some r := by
  induction store with
  | nil => simp [lookupStore] at h
  | cons p rest ih =>
    obtain ⟨k, w⟩ := p
    by_cases hk : k = id
    · subst hk
      simp only [updateStore, if_pos rfl]
      simp [lookupStore]
    · simp only [lookupStore, if_neg hk] at h
      simp only [updateStore, if_neg hk]
      simp only [lookupStore, if_neg hk]
      exact ih h

lemma lookupStore_updateStore_ne {α : Type} {store : List (String × α)} {id j : String}
    (r : α) (hne : j ≠ id) :
    lookupStore (updateStore store id r) j = lookupStore store j := by
  induction store with
  | nil => rfl
  | cons p rest ih =>
    obtain ⟨k, w⟩ := p
    by_cases hk : k = id
    · subst hk
      have h1 : ¬ k = j := fun he => hne he.symm
      simp only [updateStore, if_pos rfl]
      simp only [lookupStore, if_neg h1]
      exact ih
    · simp only [updateStore, if_neg hk]
      by_cases hj : k = j
      · subst hj
        simp [lookupStore]
      · simp only [lookupStore, if_neg hj]
        exact ih

lemma mem_updateStore {α : Type} {store : List (String × α)} {id : String} {r : α}
    {p : String × α} (hp : p ∈ updateStore store id r) : p ∈ store ∨ p.2 = r := by
  induction store with
  | nil => simp [updateStore] at hp
  | cons q rest ih =>
    obtain ⟨k, w⟩ := q
    by_cases hk : k = id
    · subst hk
      simp only [updateStore, if_pos rfl, if_true, List.mem_cons] at hp
      rcases hp with h | h
      · right
        rw [h]
      · rcases ih h with h2 | h2
        · exact Or.inl (List.mem_cons_of_mem _ h2)
        · exact Or.inr h2
    · simp only [updateStore, if_neg hk, List.mem_cons] at hp
      rcases hp with h | h
      · exact Or.inl (by rw [h]; exact List.mem_cons_self _ _)
      · rcases ih h with h2 | h2
        · exact Or.inl (List.mem_cons_of_mem _ h2)
        · exact Or.inr h2
lemma apply_leave_state (s : SystemState) (id : String) (dates : List String) :
    (apply_leave s id dates).2 = s ∨
      ∃ data, lookupStore s.employee_leaves id = some data ∧
        (dates.length : Int) ≤ data.balance ∧
        (apply_leave s id dates).2.employee_leaves =
          updateStore s.employee_leaves id
            ({ balance := data.balance - dates.length, history := data.history ++ dates }) ∧
        (apply_leave s id dates).2.employee_tasks = s.employee_tasks := by
  cases h : lookupStore s.employee_leaves id with
  | none => left; simp [apply_leave, h]
  | some data =>
    by_cases hlt : data.balance < (dates.length : Int)
    · left
      simp [apply_leave, h, hlt]
    · right
      refine ⟨data, rfl, not_lt.mp hlt, ?_, ?_⟩
      · simp [apply_leave, h, hlt]
      · simp [apply_leave, h, hlt]

lemma assign_task_state (s : SystemState) (id task : String) :
    (assign_task s id task).2 = s ∨
      ∃ data, lookupStore s.employee_tasks id = some data ∧
        (assign_task s id task).2.employee_tasks =
          updateStore s.employee_tasks id ({ data with tasks := data.tasks ++ [task] }) ∧
        (assign_task s id task).2.employee_leaves = s.employee_leaves := by
  cases h : lookupStore s.employee_tasks id with
  | none => left; simp [assign_task, h]
  | some data =>
    right
    refine ⟨data, rfl, ?_, ?_⟩
    · simp [assign_task, h]
    · simp [assign_task, h]

lemma complete_task_state (s : SystemState) (id task : String) :
    (complete_task s id task).2 = s ∨
      ∃ data, lookupStore s.employee_tasks id = some data ∧
        (complete_task s id task).2.employee_tasks =
          updateStore s.employee_tasks id ({ data with completed := data.completed ++ [task] }) ∧
        (complete_task s id task).2.employee_leaves = s.employee_leaves := by
  cases h : lookupStore s.employee_tasks id with
  | none => left; simp [complete_task, h]
  | some data =>
    by_cases h1 : task ∈ data.tasks
    · by_cases h2 : task ∈ data.completed
      · left; simp [complete_task, h, h1, h2]
      · right
        refine ⟨data, rfl, ?_, ?_⟩
        · simp [complete_task, h, h1, h2]
        · simp [complete_task, h, h1, h2]
    · left; simp [complete_task, h, h1]

lemma leaveInv_updateStore {store : LeaveStore} {id : String} {r : LeaveRecord}
    (hInv : LeaveInv store) (hr : 0 ≤ r.balance ∧ r.balance ≤ 20) :
    LeaveInv (updateStore store id r) := by
  intro p hp
  rcases mem_updateStore hp with h | h
  · exact hInv p h
  · rw [h]
    exact hr

lemma leaveInv_step (s : SystemState) (c : Command)
    (hInv : LeaveInv s.employee_leaves) : LeaveInv (step s c).employee_leaves := by
  cases c with
  | applyLeave id dates =>
    show LeaveInv (apply_leave s id dates).2.employee_leaves
    rcases apply_leave_state s id dates with h | ⟨data, hd, hle, hs, -⟩
    · rw [h]
      exact hInv
    · rw [hs]
      apply leaveInv_updateStore hInv
      have hb := hInv _ (lookupStore_mem hd)
      simp only at hb
      have hn : (0 : Int) ≤ (dates.length : Int) := Int.ofNat_nonneg _
      constructor
      · simp
        omega
      · simp
        omega
  | assignTask id task =>
    show LeaveInv (assign_task s id task).2.employee_leaves
    rcases assign_task_state s id task with h | ⟨data, hd, hs, hl⟩
    · rw [h]; exact hInv
    · rw [hl]; exact hInv
  | completeTask id task =>
    show LeaveInv (complete_task s id task).2.employee_leaves
    rcases complete_task_state s id task with h | ⟨data, hd, hs, hl⟩
    · rw [h]; exact hInv
    · rw [hl]; exact hInv

lemma leaveInv_foldl (cs : List Command) (s : SystemState)
    (hInv : LeaveInv s.employee_leaves) :
    LeaveInv (cs.foldl step s).employee_leaves := by
  induction cs generalizing s with
  | nil => exact hInv
  | cons c rest ih => exact ih _ (leaveInv_step s c hInv)

lemma leaveInv_initial : LeaveInv initialState.employee_leaves := by
  unfold LeaveInv initialState
  decide

lemma leaveInv_run (cs : List Command) : LeaveInv (run cs).employee_leaves :=
  leaveInv_foldl cs initialState leaveInv_initial
lemma step_balance_mono (s : SystemState) (c : Command) (id : String)
    (d d' : LeaveRecord)
    (h : lookupStore s.employee_leaves id = some d)
    (h' : lookupStore (step s c).employee_leaves id = some d') :
    d'.balance ≤ d.balance := by
  cases c with
  | applyLeave cid dates =>
    by_cases hcid : id = cid
    · subst hcid
      simp only [step] at h'
      rcases apply_leave_state s id dates with hs | ⟨data, hd, hle, hs, -⟩
      · rw [hs, h] at h'
        cases h'
        exact le_refl _
      · rw [hd] at h
        cases h
        rw [hs, lookupStore_updateStore_self _ hd] at h'
        cases h'
        simp
    · simp only [step] at h'
      rcases apply_leave_state s cid dates with hs | ⟨data, hd, hle, hs, -⟩
      · rw [hs, h] at h'
        cases h'
        exact le_refl _
      · rw [hs, lookupStore_updateStore_ne _ hcid, h] at h'
        cases h'
        exact le_refl _
  | assignTask cid task =>
    simp only [step] at h'
    rcases assign_task_state s cid task with hs | ⟨data, hd, -, hl⟩
    · rw [hs, h] at h'
      cases h'
      exact le_refl _
    · rw [hl, h] at h'
      cases h'
      exact le_refl _
  | completeTask cid task =>
    simp only [step] at h'
    rcases complete_task_state s cid task with hs | ⟨data, hd, -, hl⟩
    · rw [hs, h] at h'
      cases h'
      exact le_refl _
    · rw [hl, h] at h'
      cases h'
      exact le_refl _

lemma glyphRepeat_length (c : Char) (n : Int) : (glyphRepeat c n).length = n.toNat := by
  simp [glyphRepeat, String.length]

lemma bar_length (b : Int) (h0 : 0 ≤ b) (h20 : b ≤ 20) :
    (glyphRepeat '🟩' b ++ glyphRepeat '⬜' (20 - b)).length = 20 := by
  rw [String.length_append, glyphRepeat_length, glyphRepeat_length]
  omega

lemma foldl_append_line (f : String × LeaveRecord → String) :
    ∀ (l : LeaveStore) (init : List String),
      l.foldl (fun acc p => acc ++ [f p]) init = init ++ l.map f := by
  intro l
  induction l with
  | nil => simp
  | cons p rest ih =>
    intro init
    simp [ih]
/-- C1: when a known employee requests more dates than the remaining balance,
`apply_leave` returns the insufficiency message carrying both the requested
count and the available balance, and the whole state is returned unchanged. -/
theorem apply_leave_insufficient (s : SystemState) (id : String) (dates : List String)
    (data : LeaveRecord) (h : lookupStore s.employee_leaves id = some data)
    (hlt : data.balance < (dates.length : Int)) :
    apply_leave s id dates =
      ("Insufficient leave balance. You requested " ++ toString (dates.length : Int) ++
        " day(s) but have only " ++ toString data.balance ++ ".", s) := by
  simp [apply_leave, h, hlt]

/-- Witness for C1: one requested day against a zero balance. -/
theorem apply_leave_insufficient_witness :
    apply_leave ⟨[("A", ⟨0, []⟩)], []⟩ "A" ["2025-01-01"] =
      ("Insufficient leave balance. You requested 1 day(s) but have only 0.",
       ⟨[("A", ⟨0, []⟩)], []⟩) :=
  apply_leave_insufficient ⟨[("A", ⟨0, []⟩)], []⟩ "A" ["2025-01-01"] ⟨0, []⟩
    (by decide) (by decide)

/-- C2: after any finite sequence of tool invocations from the initial state,
every employee's leave balance is still nonnegative. -/
theorem run_balance_nonneg (cs : List Command) (id : String) (data : LeaveRecord)
    (h : lookupStore (run cs).employee_leaves id = some data) :
    0 ≤ data.balance :=
  (leaveInv_run cs _ (lookupStore_mem h)).1

/-- Witness for C2: the balance of E001 after a two-day leave application. -/
theorem run_balance_nonneg_witness :
    0 ≤ (⟨16, ["2024-12-25", "2025-01-01", "2025-03-01", "2025-03-02"]⟩ : LeaveRecord).balance :=
  run_balance_nonneg [Command.applyLeave "E001" ["2025-03-01", "2025-03-02"]] "E001"
    ⟨16, ["2024-12-25", "2025-01-01", "2025-03-01", "2025-03-02"]⟩ (by decide)

/-- C3: when a known employee requests at most the remaining balance,
`apply_leave` deducts exactly the number of dates, appends the dates to the
history in order (no deduplication, no validation), and leaves the task
store untouched. -/
theorem apply_leave_success (s : SystemState) (id : String) (dates : List String)
    (data : LeaveRecord) (h : lookupStore s.employee_leaves id = some data)
    (hle : (dates.length : Int) ≤ data.balance) :
    (apply_leave s id dates).1 =
      "Leave applied for " ++ toString (dates.length : Int) ++
        " day(s). Remaining balance: " ++ toString (data.balance - dates.length) ++ "." ∧
    (apply_leave s id dates).2.employee_leaves =
      updateStore s.employee_leaves id
        ({ balance := data.balance - dates.length, history := data.history ++ dates }) ∧
    lookupStore (apply_leave s id dates).2.employee_leaves id =
      some ({ balance := data.balance - dates.length, history := data.history ++ dates }) ∧
    (apply_leave s id dates).2.employee_tasks = s.employee_tasks := by
  have hnot : ¬ data.balance < (dates.length : Int) := not_lt.mpr hle
  have hstate : (apply_leave s id dates).2.employee_leaves =
      updateStore s.employee_leaves id
        ({ balance := data.balance - dates.length, history := data.history ++ dates }) := by
    simp [apply_leave, h, hnot]
  refine ⟨by simp [apply_leave, h, hnot], hstate, ?_, by simp [apply_leave, h, hnot]⟩
  rw [hstate]
  exact lookupStore_updateStore_self _ h

/-- Witness for C3: the spec scenario, E001 applying for two days from 18. -/
theorem apply_leave_success_witness :
    (apply_leave initialState "E001" ["2025-03-01", "2025-03-02"]).1 =
      "Leave applied for 2 day(s). Remaining balance: 16." ∧
    (apply_leave initialState "E001" ["2025-03-01", "2025-03-02"]).2.employee_leaves =
      updateStore initialState.employee_leaves "E001"
        ⟨16, ["2024-12-25", "2025-01-01", "2025-03-01", "2025-03-02"]⟩ ∧
    lookupStore (apply_leave initialState "E001" ["2025-03-01", "2025-03-02"]).2.employee_leaves
        "E001" =
      some ⟨16, ["2024-12-25", "2025-01-01", "2025-03-01", "2025-03-02"]⟩ ∧
    (apply_leave initialState "E001" ["2025-03-01", "2025-03-02"]).2.employee_tasks =
      initialState.employee_tasks :=
  apply_leave_success initialState "E001" ["2025-03-01", "2025-03-02"]
    ⟨18, ["2024-12-25", "2025-01-01"]⟩ (by decide) (by decide)

/-- C9: for a known employee with a nonnegative balance, an empty request
always succeeds and changes nothing, and a request of exactly the remaining
balance succeeds and leaves balance 0 (the insufficiency test is strict). -/
theorem apply_leave_boundary (s : SystemState) (id : String) (data : LeaveRecord)
    (h : lookupStore s.employee_leaves id = some data) (hb : 0 ≤ data.balance) :
    ((apply_leave s id []).1 =
        "Leave applied for " ++ toString (0 : Int) ++ " day(s). Remaining balance: " ++
          toString data.balance ++ "." ∧
      lookupStore (apply_leave s id []).2.employee_leaves id = some data) ∧
    (∀ dates : List String, (dates.length : Int) = data.balance →
      (apply_leave s id dates).1 =
        "Leave applied for " ++ toString (dates.length : Int) ++
          " day(s). Remaining balance: " ++ toString (0 : Int) ++ "." ∧
      lookupStore (apply_leave s id dates).2.employee_leaves id =
        some (⟨0, data.history ++ dates⟩ : LeaveRecord)) := by
  constructor
  · have hnot : ¬ data.balance < (0 : Int) := not_lt.mpr hb
    constructor
    · simp [apply_leave, h, hnot]
    · have hstate : (apply_leave s id []).2.employee_leaves =
          updateStore s.employee_leaves id data := by
        simp [apply_leave, h, hnot]
      rw [hstate]
      exact lookupStore_updateStore_self _ h
  · intro dates hlen
    have hnot : ¬ data.balance < (dates.length : Int) := not_lt.mpr (le_of_eq hlen)
    have hzero : data.balance - (dates.length : Int) = 0 := by omega
    constructor
    · simp [apply_leave, h, hnot, hzero]
    · have hstate : (apply_leave s id dates).2.employee_leaves =
          updateStore s.employee_leaves id (⟨0, data.history ++ dates⟩ : LeaveRecord) := by
        simp [apply_leave, h, hnot, hzero]
      rw [hstate]
      exact lookupStore_updateStore_self _ h

/-- Witness for C9: E002 with balance 20 applies for zero days, then for
exactly 20 days. -/
theorem apply_leave_boundary_witness :
    ((apply_leave initialState "E002" []).1 =
        "Leave applied for 0 day(s). Remaining balance: 20." ∧
      lookupStore (apply_leave initialState "E002" []).2.employee_leaves "E002" =
        some ⟨20, []⟩) ∧
    ((apply_leave initialState "E002" (List.replicate 20 "2025-06-01")).1 =
        "Leave applied for 20 day(s). Remaining balance: 0." ∧
      lookupStore
          (apply_leave initialState "E002" (List.replicate 20 "2025-06-01")).2.employee_leaves
          "E002" =
        some ⟨0, List.replicate 20 "2025-06-01"⟩) := by
  have h := apply_leave_boundary initialState "E002" ⟨20, []⟩ (by decide) (by decide)
  exact ⟨h.1, h.2 (List.replicate 20 "2025-06-01") (by decide)⟩
/-- C4: for a known employee, `complete_task` reports task-not-assigned
exactly when the name is absent from the tasks list, reports
already-completed (changing nothing, hence no duplicate entry) when the name
is assigned and already completed, and otherwise appends the name once to
the end of the completed list. -/
theorem complete_task_cases (s : SystemState) (id task : String) (data : TaskRecord)
    (h : lookupStore s.employee_tasks id = some data) :
    (task ∉ data.tasks →
      complete_task s id task = ("Task '" ++ task ++ "' not found for " ++ id ++ ".", s)) ∧
    (task ∈ data.tasks → task ∈ data.completed →
      complete_task s id task = ("Task '" ++ task ++ "' is already marked as completed.", s)) ∧
    (task ∈ data.tasks → task ∉ data.completed →
      (complete_task s id task).1 =
        "Task '" ++ task ++ "' marked as completed for " ++ id ++ "." ∧
      lookupStore (complete_task s id task).2.employee_tasks id =
        some (⟨data.tasks, data.completed ++ [task]⟩ : TaskRecord) ∧
      (complete_task s id task).2.employee_leaves = s.employee_leaves) := by
  refine ⟨?_, ?_, ?_⟩
  · intro h1
    simp [complete_task, h, h1]
  · intro h1 h2
    simp [complete_task, h, h1, h2]
  · intro h1 h2
    have hstate : (complete_task s id task).2.employee_tasks =
        updateStore s.employee_tasks id (⟨data.tasks, data.completed ++ [task]⟩ : TaskRecord) := by
      simp [complete_task, h, h1, h2]
    refine ⟨by simp [complete_task, h, h1, h2], ?_, by simp [complete_task, h, h1, h2]⟩
    rw [hstate]
    exact lookupStore_updateStore_self _ h

/-- Witness for C4: E002's assigned, uncompleted task is appended to
completed; an unassigned name and E001's completed task hit the two
failure messages. -/
theorem complete_task_cases_witness :
    (complete_task initialState "E002" "Update website").1 =
      "Task 'Update website' marked as completed for E002." ∧
    lookupStore (complete_task initialState "E002" "Update website").2.employee_tasks "E002" =
      some ⟨["Update website", "Backup database"], ["Update website"]⟩ ∧
    (complete_task initialState "E002" "Update website").2.employee_leaves =
      initialState.employee_leaves :=
  (complete_task_cases initialState "E002" "Update website"
      ⟨["Update website", "Backup database"], []⟩ (by decide)).2.2
    (by decide) (by decide)

/-- C5: for a known employee, the pending list of `view_tasks` is the tasks
list filtered by names absent from completed, in order (a sublist of
`tasks`); a completed name is excluded from pending at every one of its
occurrences; and the rendered message is built from exactly this list. -/
theorem view_tasks_pending (s : SystemState) (id : String) (data : TaskRecord)
    (h : lookupStore s.employee_tasks id = some data) :
    List.Sublist (pendingOf data) data.tasks ∧
    (∀ t, t ∈ pendingOf data ↔ t ∈ data.tasks ∧ t ∉ data.completed) ∧
    (∀ t, t ∈ data.completed → List.count t (pendingOf data) = 0) ∧
    view_tasks s id =
      "Tasks for " ++ id ++ ":\n✅ Completed: " ++
        (if data.completed = [] then "No tasks completed yet."
         else String.intercalate ", " data.completed) ++
      "\n🕒 Pending: " ++
        (if pendingOf data = [] then "No pending tasks."
         else String.intercalate ", " (pendingOf data)) := by
  refine ⟨List.filter_sublist _, ?_, ?_, ?_⟩
  · intro t
    simp [pendingOf]
  · intro t ht
    rw [List.count_eq_zero]
    intro hmem
    rw [pendingOf, List.mem_filter] at hmem
    simp at hmem
    exact hmem.2 ht
  · simp [view_tasks, h]

/-- Witness for C5: a duplicated task name vanishes wholly from pending once
completed. -/
theorem view_tasks_pending_witness :
    List.Sublist (pendingOf ⟨["a", "b", "a"], ["a"]⟩) ["a", "b", "a"] ∧
    (∀ t, t ∈ pendingOf ⟨["a", "b", "a"], ["a"]⟩ ↔ t ∈ ["a", "b", "a"] ∧ t ∉ ["a"]) ∧
    (∀ t, t ∈ ["a"] → List.count t (pendingOf ⟨["a", "b", "a"], ["a"]⟩) = 0) ∧
    view_tasks ⟨[], [("X", ⟨["a", "b", "a"], ["a"]⟩)]⟩ "X" =
      "Tasks for X:\n✅ Completed: " ++
        (if (["a"] : List String) = [] then "No tasks completed yet."
         else String.intercalate ", " ["a"]) ++
      "\n🕒 Pending: " ++
        (if pendingOf ⟨["a", "b", "a"], ["a"]⟩ = [] then "No pending tasks."
         else String.intercalate ", " (pendingOf ⟨["a", "b", "a"], ["a"]⟩)) :=
  view_tasks_pending ⟨[], [("X", ⟨["a", "b", "a"], ["a"]⟩)]⟩ "X"
    ⟨["a", "b", "a"], ["a"]⟩ (by decide)

/-- C6: an employee id that is no key of the queried store makes every
operation answer the not-found message and hand back the state unchanged:
no record is ever created. -/
theorem unknown_employee_rejected (s : SystemState) (id : String)
    (hL : lookupStore s.employee_leaves id = none)
    (hT : lookupStore s.employee_tasks id = none) :
    get_leave_balance s id = "Employee ID not found." ∧
    (∀ dates, apply_leave s id dates = ("Employee ID not found.", s)) ∧
    get_leave_history s id = "Employee ID not found." ∧
    (∀ task, assign_task s id task = ("Employee ID not found.", s)) ∧
    (∀ task, complete_task s id task = ("Employee ID not found.", s)) ∧
    view_tasks s id = "Employee ID not found." := by
  refine ⟨?_, fun dates => ?_, ?_, fun task => ?_, fun task => ?_, ?_⟩
  · simp [get_leave_balance, hL]
  · simp [apply_leave, hL]
  · simp [get_leave_history, hL]
  · simp [assign_task, hT]
  · simp [complete_task, hT]
  · simp [view_tasks, hT]

/-- Witness for C6: the unknown id E999 against the initial stores. -/
theorem unknown_employee_rejected_witness :
    get_leave_balance initialState "E999" = "Employee ID not found." ∧
    (∀ dates, apply_leave initialState "E999" dates = ("Employee ID not found.", initialState)) ∧
    get_leave_history initialState "E999" = "Employee ID not found." ∧
    (∀ task, assign_task initialState "E999" task = ("Employee ID not found.", initialState)) ∧
    (∀ task, complete_task initialState "E999" task = ("Employee ID not found.", initialState)) ∧
    view_tasks initialState "E999" = "Employee ID not found." :=
  unknown_employee_rejected initialState "E999" (by decide) (by decide)
/-- C7: the textual summary renders, per known employee in store iteration
order, one line of filled glyphs (`balance` many) then empty glyphs
(`20 - balance` many) beside the id and the balance, under the header; the
renderer takes no state back, so it cannot mutate the store. -/
theorem visualize_leave_summary_correct (s : SystemState) :
    visualize_leave_summary s = leaveSummarySpec s := by
  show String.intercalate "\n"
      (s.employee_leaves.foldl (fun acc p => acc ++
        [p.1 ++ ": " ++ (glyphRepeat '🟩' p.2.balance ++ glyphRepeat '⬜' (20 - p.2.balance)) ++
          " (" ++ toString p.2.balance ++ " days left)"]) ["🗂️ Leave Balances Summary:\n"]) =
    leaveSummarySpec s
  rw [foldl_append_line (fun p =>
    p.1 ++ ": " ++ (glyphRepeat '🟩' p.2.balance ++ glyphRepeat '⬜' (20 - p.2.balance)) ++
      " (" ++ toString p.2.balance ++ " days left)")]
  rfl

/-- C8: every reachable balance stays within the 20-day cap (no operation
increases a balance, and the initial balances are at most 20), so the
summary bar's empty part is never negative and each bar holds exactly 20
glyphs. -/
theorem balance_capped_and_bars (cs : List Command) (p : String × LeaveRecord)
    (hp : p ∈ (run cs).employee_leaves) (s : SystemState) (c : Command) (id : String)
    (d d' : LeaveRecord) (hd : lookupStore s.employee_leaves id = some d)
    (hd' : lookupStore (step s c).employee_leaves id = some d') :
    (0 ≤ p.2.balance ∧ p.2.balance ≤ 20 ∧ 0 ≤ 20 - p.2.balance ∧
      (glyphRepeat '🟩' p.2.balance ++ glyphRepeat '⬜' (20 - p.2.balance)).length = 20) ∧
    d'.balance ≤ d.balance := by
  have hInv := leaveInv_run cs p hp
  exact ⟨⟨hInv.1, hInv.2, by omega, bar_length _ hInv.1 hInv.2⟩,
    step_balance_mono s c id d d' hd hd'⟩

/-- Witness for C8: the state after E001 takes one day of leave. -/
theorem balance_capped_and_bars_witness :
    (0 ≤ (("E001", ⟨17, ["2024-12-25", "2025-01-01", "2025-04-01"]⟩) :
        String × LeaveRecord).2.balance ∧
      (("E001", ⟨17, ["2024-12-25", "2025-01-01", "2025-04-01"]⟩) :
        String × LeaveRecord).2.balance ≤ 20 ∧
      0 ≤ 20 - (("E001", ⟨17, ["2024-12-25", "2025-01-01", "2025-04-01"]⟩) :
        String × LeaveRecord).2.balance ∧
      (glyphRepeat '🟩' (("E001", ⟨17, ["2024-12-25", "2025-01-01", "2025-04-01"]⟩) :
          String × LeaveRecord).2.balance ++
        glyphRepeat '⬜' (20 - (("E001", ⟨17, ["2024-12-25", "2025-01-01", "2025-04-01"]⟩) :
          String × LeaveRecord).2.balance)).length = 20) ∧
    (⟨17, ["2024-12-25", "2025-01-01", "2025-04-01"]⟩ : LeaveRecord).balance ≤
      (⟨18, ["2024-12-25", "2025-01-01"]⟩ : LeaveRecord).balance :=
  balance_capped_and_bars [Command.applyLeave "E001" ["2025-04-01"]]
    ("E001", ⟨17, ["2024-12-25", "2025-01-01", "2025-04-01"]⟩) (by decide)
    initialState (Command.applyLeave "E001" ["2025-04-01"]) "E001"
    ⟨18, ["2024-12-25", "2025-01-01"]⟩ ⟨17, ["2024-12-25", "2025-01-01", "2025-04-01"]⟩
    (by decide) (by decide)

/-- C10: each mutating operation touches only its own store and only the
addressed employee's record: every other id reads back unchanged from both
stores. -/
theorem frame_other_records (s : SystemState) (id j : String) (dates : List String)
    (task : String) (hne : j ≠ id) :
    (apply_leave s id dates).2.employee_tasks = s.employee_tasks ∧
    lookupStore (apply_leave s id dates).2.employee_leaves j = lookupStore s.employee_leaves j ∧
    (assign_task s id task).2.employee_leaves = s.employee_leaves ∧
    lookupStore (assign_task s id task).2.employee_tasks j = lookupStore s.employee_tasks j ∧
    (complete_task s id task).2.employee_leaves = s.employee_leaves ∧
    lookupStore (complete_task s id task).2.employee_tasks j = lookupStore s.employee_tasks j := by
  refine ⟨?_, ?_, ?_, ?_, ?_, ?_⟩
  · rcases apply_leave_state s id dates with h | ⟨data, hd, hle, hsl, hst⟩
    · rw [h]
    · exact hst
  · rcases apply_leave_state s id dates with h | ⟨data, hd, hle, hsl, hst⟩
    · rw [h]
    · rw [hsl]
      exact lookupStore_updateStore_ne _ hne
  · rcases assign_task_state s id task with h | ⟨data, hd, hst, hsl⟩
    · rw [h]
    · exact hsl
  · rcases assign_task_state s id task with h | ⟨data, hd, hst, hsl⟩
    · rw [h]
    · rw [hst]
      exact lookupStore_updateStore_ne _ hne
  · rcases complete_task_state s id task with h | ⟨data, hd, hst, hsl⟩
    · rw [h]
    · exact hsl
  · rcases complete_task_state s id task with h | ⟨data, hd, hst, hsl⟩
    · rw [h]
    · rw [hst]
      exact lookupStore_updateStore_ne _ hne

/-- Witness for C10: operations addressed to E001 leave E002's records as
they were. -/
theorem frame_other_records_witness :
    (apply_leave initialState "E001" ["2025-04-01"]).2.employee_tasks =
      initialState.employee_tasks ∧
    lookupStore (apply_leave initialState "E001" ["2025-04-01"]).2.employee_leaves "E002" =
      lookupStore initialState.employee_leaves "E002" ∧
    (assign_task initialState "E001" "New task").2.employee_leaves =
      initialState.employee_leaves ∧
    lookupStore (assign_task initialState "E001" "New task").2.employee_tasks "E002" =
      lookupStore initialState.employee_tasks "E002" ∧
    (complete_task initialState "E001" "New task").2.employee_leaves =
      initialState.employee_leaves ∧
    lookupStore (complete_task initialState "E001" "New task").2.employee_tasks "E002" =
      lookupStore initialState.employee_tasks "E002" :=
  frame_other_records initialState "E001" "E002" ["2025-04-01"] "New task" (by decide)
